import Mathlib

/-!
Verification of the PMax audit tool ingestion/analytics engine.

The definitions below are a shallow embedding of the Python source:
* `src/data_processing.py` — `assess_product_performance`, `calculate_funnel_metrics`
* `src/pmax_audit_tool.py` — `process_large_csv` and its Pareto loop
* `src/charts.py` — the cumulative-percentage count in `create_pareto_chart`

Numeric cells are modelled over `ℚ`; pandas `NaN` (a missing value) is
modelled as `Option.none`.
-/

/-! ## Value coercion (cell-level parsing)

The Python code coerces cells with `pd.to_numeric(...)` after various string
clean-ups.  `parseDecimal` models `pd.to_numeric(s, errors='coerce')`
restricted to unsigned decimal literals (digits with at most one decimal
point), which covers every token the audited pipelines can produce: percent
values, comma-stripped counts, and the placeholder tokens "--" and "< 10".
Any other string coerces to `none` (models `NaN`). -/

/-- Numeric value of a digit string read most-significant first. -/
def digitsVal (l : List Char) : ℕ :=
  l.foldl (fun n c => 10 * n + (c.toNat - 48)) 0

/-- Test that every character is a decimal digit. -/
def allDigits (l : List Char) : Bool :=
  l.all (fun c => c.isDigit)

/-- Splits a character list on the decimal point, like Python
`s.split(".")`: the result always has one more part than there are points. -/
def splitOnDot : List Char → List (List Char)
  | [] => [[]]
  | c :: cs =>
      match splitOnDot cs with
      | [] => if c = '.' then [[], []] else [[c]]
      | h :: t => if c = '.' then [] :: h :: t else (c :: h) :: t

/-- Models `pd.to_numeric(s, errors='coerce')` on unsigned decimal literals:
`"12"`, `"12.5"`, `".5"`, `"5."` parse; anything else (including `""`,
`"--"`, `"< 10"`) gives `none`, the model of `NaN`. -/
def parseDecimal (s : String) : Option ℚ :=
  match splitOnDot s.data with
  | [a] =>
      if 0 < a.length ∧ allDigits a = true then some (digitsVal a) else none
  | [a, b] =>
      if (0 < a.length ∨ 0 < b.length) ∧ allDigits a = true ∧ allDigits b = true
      then some ((digitsVal a : ℚ) + (digitsVal b : ℚ) / (10 : ℚ) ^ b.length)
      else none
  | _ => none

/-- Models the regex replace `str.replace(r'[^0-9.]', '', regex=True)` of
`data_processing.py` line 153: drop every character that is not a digit or a
decimal point. -/
def stripNonNumeric (s : String) : String :=
  String.mk (s.data.filter (fun c => c.isDigit || c = '.'))

/-- Models the comma removal `str.replace(",", "")` of
`pmax_audit_tool.py` line 137. -/
def stripCommas (s : String) : String :=
  String.mk (s.data.filter (fun c => c ≠ ','))

/-- Models one cell of the generic numeric coercion of
`data_processing.py` line 153:
`pd.to_numeric(cell.astype(str).str.replace(r'[^0-9.]', '', regex=True), errors='coerce').fillna(0)`. -/
def numericCoerce (s : String) : ℚ :=
  (parseDecimal (stripNonNumeric s)).getD 0

/-- Models one cell of the numeric coercion of `pmax_audit_tool.py` line 137:
`pd.to_numeric(cell.astype(str).str.replace(",", ""), errors='coerce').fillna(0)`. -/
def pmaxCoerce (s : String) : ℚ :=
  (parseDecimal (stripCommas s)).getD 0

/-- Models `data_processing.py` lines 150–164 applied to one cell of the
`search_impression_share` column.  Line 153 first applies `numericCoerce`
(the column is listed in `numeric_columns`), leaving a float column with no
missing values.  The subsequent chain of lines 156–164
(`.replace("--", None).replace("< 10", "5").str.rstrip("%")` followed by
`pd.to_numeric(..., errors="coerce")`) then acts on the decimal string form
of that float, which never equals `"--"` or `"< 10"` and contains no `"%"`,
so the chain is the identity: every cell ends defined (`some`). -/
def assess_sis_value (s : String) : Option ℚ :=
  some (numericCoerce s)

/-- Models `pmax_audit_tool.py` lines 144–148 applied to one cell of the
`search impr. share` column: remove every `"%"` (`.str.replace("%", "")`),
replace a cell equal to `"--"` by `""` (`.replace("--", "")`), then
`pd.to_numeric(..., errors='coerce')`; `none` cells are later dropped by
`dropna()` before the average. -/
def pmax_sis_value (s : String) : Option ℚ :=
  let t := String.mk (s.data.filter (fun c => c ≠ '%'))
  let u := if t = "--" then "" else t
  parseDecimal u

/-! ## Guarded ROAS division -/

/-- Models `pmax_audit_tool.py` line 187:
`average_roas = total_conversion_value / total_cost if total_cost > 0 else 0`. -/
def average_roas (v cost : ℚ) : ℚ :=
  if 0 < cost then v / cost else 0

/-- Models `data_processing.py` line 181:
`roas = total_conversion_value / total_cost if total_cost > 0 else 0`. -/
def assess_roas (v cost : ℚ) : ℚ :=
  if 0 < cost then v / cost else 0

/-! ## Claims C2 and C3 -/

/-- C2: the claim says the coercion maps a `search_impression_share` cell
"< 10" to 0.05 and "--" to a missing value excluded from the average, in
both `assess_product_performance` and `process_large_csv`.  The code
disagrees: `assess_product_performance` coerces "< 10" to 10 and "--" to 0
(a defined value that enters the mean), because its generic numeric
coercion runs before the placeholder-replacement chain, leaving that chain
dead; `process_large_csv` maps both "< 10" and "--" to missing. -/
theorem C2_placeholder_coercion_eval :
    assess_sis_value "< 10" = some 10 ∧
    assess_sis_value "--" = some 0 ∧
    pmax_sis_value "< 10" = none ∧
    pmax_sis_value "--" = none := by
  refine ⟨?_, ?_, ?_, ?_⟩ <;> decide

/-- C3: the overall ROAS is a guarded division in both
`process_large_csv` and `assess_product_performance`: zero conversion value
with positive cost gives 0, positive conversion value with zero cost gives
0, and the total `ℚ`-valued functions witness that no NaN, Infinity or
exception can arise. -/
theorem C3_roas_guarded_division (v cost : ℚ) :
    (v = 0 → 0 < cost → average_roas v cost = 0 ∧ assess_roas v cost = 0) ∧
    (0 < v → cost = 0 → average_roas v cost = 0 ∧ assess_roas v cost = 0) := by
  constructor
  · intro hv hc
    simp [average_roas, assess_roas, hv, hc]
  · intro _ hc
    simp [average_roas, assess_roas, hc]

/-- Witness for C3 at concrete inputs. -/
theorem C3_roas_guarded_division_witness :
    average_roas 0 5 = 0 ∧ assess_roas 0 5 = 0 ∧
    average_roas 7 0 = 0 ∧ assess_roas 7 0 = 0 := by
  have h1 := (C3_roas_guarded_division 0 5).1 rfl (by norm_num)
  have h2 := (C3_roas_guarded_division 7 0).2 (by norm_num) rfl
  exact ⟨h1.1, h1.2, h2.1, h2.2⟩

/-! ## Pareto analysis

Embeds `pmax_audit_tool.py` lines 171–184 (the accumulation loop of
`process_large_csv`) and `charts.py` lines 33–37 (the count in
`create_pareto_chart`).  A SKU-revenue table is a list of
(item id, accumulated conversion value) pairs. -/

/-- Models `pmax_audit_tool.py` line 172:
`pareto_threshold = 0.8 * total_conversion_value if total_conversion_value else 0`
(Python truthiness: the `else` branch is taken exactly when the total is 0). -/
def pareto_threshold (v : ℚ) : ℚ :=
  if v = 0 then 0 else 0.8 * v

/-- Descending-revenue order on SKU table entries, as used by
`sorted(sku_sales.items(), key=lambda x: x[1], reverse=True)`
(`pmax_audit_tool.py` line 173). -/
def skuDescOrder (a b : String × ℚ) : Prop :=
  b.2 ≤ a.2

instance : DecidableRel skuDescOrder :=
  fun a b => inferInstanceAs (Decidable (b.2 ≤ a.2))

instance : IsTotal (String × ℚ) skuDescOrder :=
  ⟨fun a b => le_total b.2 a.2⟩

instance : IsTrans (String × ℚ) skuDescOrder :=
  ⟨fun _ _ _ h1 h2 => le_trans h2 h1⟩

/-- Models `pmax_audit_tool.py` line 173: the SKU table sorted by revenue
descending (Python `sorted` is stable; ties keep table order, which no
claim depends on). -/
def sortedSkus (m : List (String × ℚ)) : List (String × ℚ) :=
  List.insertionSort skuDescOrder m

/-- Models the accumulation loop of `pmax_audit_tool.py` lines 174–181 over
the revenue column of the sorted table: add each sale and count it, stopping
(inclusively) as soon as the running total reaches the threshold; if the
list is exhausted first, the count of all entries is returned. -/
def paretoLoop (thr : ℚ) : ℚ → ℕ → List ℚ → ℕ
  | _, cnt, [] => cnt
  | acc, cnt, s :: rest =>
      if thr ≤ acc + s then cnt + 1 else paretoLoop thr (acc + s) (cnt + 1) rest

/-- Models `sku_count_for_pareto` as computed by
`pmax_audit_tool.py` lines 171–181 from the SKU table and the global
conversion-value total. -/
def sku_count_for_pareto (m : List (String × ℚ)) (v : ℚ) : ℕ :=
  paretoLoop (pareto_threshold v) 0 0 ((sortedSkus m).map Prod.snd)

/-- Models `pmax_audit_tool.py` lines 183–184:
`pareto_percentage = (sku_count_for_pareto / total_unique_skus * 100) if total_unique_skus else 0`. -/
def pareto_percentage (m : List (String × ℚ)) (v : ℚ) : ℚ :=
  if m.length ≠ 0 then (sku_count_for_pareto m v : ℚ) / (m.length : ℚ) * 100 else 0

/-- Models the pandas `cumsum` of `charts.py` line 35: the list of running
prefix sums starting from `acc`. -/
def cumSums (acc : ℚ) : List ℚ → List ℚ
  | [] => []
  | s :: rest => (acc + s) :: cumSums (acc + s) rest

/-- Models `charts.py` lines 35–37 applied to the `Sales` column already
sorted descending (line 34; pandas `sort_values` leaves tie order
unspecified, so theorems quantify over the descending arrangement):
`sku_count_80 = (df["Cumulative Percentage"] < 0.8).sum() + 1` where
`Cumulative Percentage` is cumulative sales divided by the total. -/
def chart_sku_count_80 (sales : List ℚ) (v : ℚ) : ℕ :=
  ((cumSums 0 sales).countP (fun c => decide (c / v < 0.8))) + 1

/-! ### Helper lemmas about the accumulation loop -/

theorem paretoLoop_cnt (thr : ℚ) (l : List ℚ) :
    ∀ (acc : ℚ) (cnt : ℕ), paretoLoop thr acc cnt l = cnt + paretoLoop thr acc 0 l := by
  induction l with
  | nil => intro acc cnt; simp [paretoLoop]
  | cons s rest ih =>
      intro acc cnt
      by_cases h : thr ≤ acc + s
      · simp [paretoLoop, h]
      · simp only [paretoLoop, if_neg h]
        rw [ih (acc + s) (cnt + 1), ih (acc + s) (0 + 1)]
        omega

theorem paretoLoop_tight (thr : ℚ) (l : List ℚ) :
    ∀ acc : ℚ, acc < thr → thr ≤ acc + l.sum →
      1 ≤ paretoLoop thr acc 0 l ∧
      thr ≤ acc + (l.take (paretoLoop thr acc 0 l)).sum ∧
      acc + (l.take (paretoLoop thr acc 0 l - 1)).sum < thr := by
  induction l with
  | nil =>
      intro acc h1 h2
      simp only [List.sum_nil, add_zero] at h2
      exact absurd h2 (not_le.mpr h1)
  | cons s rest ih =>
      intro acc h1 h2
      by_cases h : thr ≤ acc + s
      · have hM : paretoLoop thr acc 0 (s :: rest) = 1 := by simp [paretoLoop, h]
        rw [hM]
        refine ⟨le_refl 1, ?_, ?_⟩
        · simpa using h
        · simpa using h1
      · have hM : paretoLoop thr acc 0 (s :: rest) = paretoLoop thr (acc + s) 0 rest + 1 := by
          simp only [paretoLoop, if_neg h]
          rw [paretoLoop_cnt]
          omega
        have h2' : thr ≤ (acc + s) + rest.sum := by
          rw [List.sum_cons] at h2
          linarith
        obtain ⟨hge, ht1, ht2⟩ := ih (acc + s) (lt_of_not_le h) h2'
        rw [hM]
        refine ⟨by omega, ?_, ?_⟩
        · rw [List.take_succ_cons, List.sum_cons]
          linarith
        · rw [Nat.add_sub_cancel]
          obtain ⟨k, hk⟩ : ∃ k, paretoLoop thr (acc + s) 0 rest = k + 1 :=
            ⟨paretoLoop thr (acc + s) 0 rest - 1, by omega⟩
          rw [hk]
          rw [hk, Nat.add_sub_cancel] at ht2
          rw [List.take_succ_cons, List.sum_cons]
          linarith

theorem cumSums_lower (thr : ℚ) (l : List ℚ) :
    ∀ a : ℚ, (∀ x ∈ l, 0 ≤ x) → thr ≤ a → ∀ c ∈ cumSums a l, thr ≤ c := by
  induction l with
  | nil => intro a _ _ c hc; simp [cumSums] at hc
  | cons s rest ih =>
      intro a hpos ha c hc
      have hs : 0 ≤ s := hpos s (by simp)
      rw [cumSums] at hc
      rcases List.mem_cons.mp hc with h | h
      · subst h; linarith
      · exact ih (a + s) (fun x hx => hpos x (by simp [hx])) (by linarith) c h

theorem paretoLoop_eq_countP (thr : ℚ) (l : List ℚ) :
    ∀ acc : ℚ, (∀ x ∈ l, 0 ≤ x) → acc < thr → thr ≤ acc + l.sum →
      paretoLoop thr acc 0 l =
        (cumSums acc l).countP (fun c => decide (c < thr)) + 1 := by
  induction l with
  | nil =>
      intro acc _ h1 h2
      simp only [List.sum_nil, add_zero] at h2
      exact absurd h2 (not_le.mpr h1)
  | cons s rest ih =>
      intro acc hpos h1 h2
      by_cases h : thr ≤ acc + s
      · have hM : paretoLoop thr acc 0 (s :: rest) = 1 := by simp [paretoLoop, h]
        have hrest : ∀ c ∈ cumSums (acc + s) rest, thr ≤ c :=
          cumSums_lower thr rest (acc + s) (fun x hx => hpos x (by simp [hx])) h
        have hcount : (cumSums acc (s :: rest)).countP (fun c => decide (c < thr)) = 0 := by
          rw [List.countP_eq_zero]
          intro c hc
          rw [cumSums] at hc
          rcases List.mem_cons.mp hc with hh | hh
          · subst hh; simpa using h
          · simpa using hrest c hh
        rw [hM, hcount]
      · have hM : paretoLoop thr acc 0 (s :: rest) = paretoLoop thr (acc + s) 0 rest + 1 := by
          simp only [paretoLoop, if_neg h]
          rw [paretoLoop_cnt]
          omega
        have h2' : thr ≤ (acc + s) + rest.sum := by
          rw [List.sum_cons] at h2
          linarith
        have ihr := ih (acc + s) (fun x hx => hpos x (by simp [hx])) (lt_of_not_le h) h2'
        have hcons : cumSums acc (s :: rest) = (acc + s) :: cumSums (acc + s) rest := rfl
        have hlt : acc + s < thr := lt_of_not_le h
        rw [hM, ihr, hcons, List.countP_cons]
        simp [hlt]

theorem sorted_map_snd {l : List (String × ℚ)} (h : List.Sorted skuDescOrder l) :
    List.Sorted (· ≥ ·) (l.map Prod.snd) :=
  List.Pairwise.map Prod.snd (fun _ _ hab => hab) h

/-! ## Claims C1, C6, C10 -/

/-- C1: for a completed SKU-revenue table whose total conversion value `v`
is positive, the reported count `M` of SKUs driving 80% of sales is tight:
the top `M` revenues (descending) sum to at least `0.8 * v` while the top
`M - 1` sum to strictly less (the stop condition is inclusive at the
boundary row), and `M ≥ 1`. -/
theorem C1_pareto_boundary_tightness (m : List (String × ℚ)) (v : ℚ)
    (hv : v = (m.map Prod.snd).sum) (h0 : 0 < v) :
    1 ≤ sku_count_for_pareto m v ∧
    0.8 * v ≤ (((sortedSkus m).map Prod.snd).take (sku_count_for_pareto m v)).sum ∧
    (((sortedSkus m).map Prod.snd).take (sku_count_for_pareto m v - 1)).sum < 0.8 * v ∧
    List.Sorted skuDescOrder (sortedSkus m) := by
  have hthr : pareto_threshold v = 0.8 * v := by
    rw [pareto_threshold, if_neg (ne_of_gt h0)]
  have hsum : ((sortedSkus m).map Prod.snd).sum = v := by
    rw [hv]
    exact ((List.perm_insertionSort skuDescOrder m).map Prod.snd).sum_eq
  have h1 : (0 : ℚ) < pareto_threshold v := by rw [hthr]; linarith
  have h2 : pareto_threshold v ≤ 0 + ((sortedSkus m).map Prod.snd).sum := by
    rw [hsum, hthr]; linarith
  obtain ⟨ha, hb, hc⟩ :=
    paretoLoop_tight (pareto_threshold v) ((sortedSkus m).map Prod.snd) 0 h1 h2
  refine ⟨ha, ?_, ?_, List.sorted_insertionSort skuDescOrder m⟩
  · rw [← hthr]
    simpa [sku_count_for_pareto] using hb
  · rw [← hthr]
    simpa [sku_count_for_pareto] using hc

/-- Witness for C1 on the concrete table A ↦ 4, B ↦ 1 with total 5;
SKU A alone covers 80%. -/
theorem C1_pareto_boundary_tightness_witness :
    1 ≤ sku_count_for_pareto [("A", 4), ("B", 1)] 5 ∧
    0.8 * 5 ≤
      (((sortedSkus [("A", 4), ("B", 1)]).map Prod.snd).take
        (sku_count_for_pareto [("A", 4), ("B", 1)] 5)).sum ∧
    (((sortedSkus [("A", 4), ("B", 1)]).map Prod.snd).take
        (sku_count_for_pareto [("A", 4), ("B", 1)] 5 - 1)).sum < 0.8 * 5 ∧
    List.Sorted skuDescOrder (sortedSkus [("A", 4), ("B", 1)]) :=
  C1_pareto_boundary_tightness [("A", 4), ("B", 1)] 5
    (by norm_num [List.map_cons, List.map_nil, List.sum_cons, List.sum_nil]) (by norm_num)

/-- C6 counterexample: the claim says that whenever the total conversion
value is ≤ 0 the Pareto result is zero count and zero percentage, but on
the one-SKU table A ↦ 0 (total 0) the code reports count 1 and
percentage 100: there is no `total ≤ 0` guard, only the threshold choice. -/
theorem C6_counterexample :
    sku_count_for_pareto [("A", 0)] 0 = 1 ∧
    pareto_percentage [("A", 0)] 0 = 100 ∧
    ¬(sku_count_for_pareto [("A", 0)] 0 = 0 ∧ pareto_percentage [("A", 0)] 0 = 0) := by
  have hcount : sku_count_for_pareto [("A", 0)] 0 = 1 := by
    simp [sku_count_for_pareto, sortedSkus, List.insertionSort, List.orderedInsert,
      paretoLoop, pareto_threshold]
  have hpct : pareto_percentage [("A", 0)] 0 = 100 := by
    rw [pareto_percentage, if_pos (by norm_num), hcount]
    norm_num
  refine ⟨hcount, hpct, ?_⟩
  intro hcontra
  rw [hcount] at hcontra
  exact absurd hcontra.1 one_ne_zero

/-- C6 (amended): when the total conversion value is ≤ 0 no exception is
raised (the embedding is total); the result is zero count and zero
percentage exactly when the SKU table is empty, while on a nonempty table
with non-negative sales and total 0 the loop reports count 1 (the first
SKU already meets the inclusive threshold 0). -/
theorem C6_pareto_zero_guard_amended (m : List (String × ℚ)) (v : ℚ) :
    (m = [] → sku_count_for_pareto m v = 0 ∧ pareto_percentage m v = 0) ∧
    (v = 0 → m ≠ [] → (∀ p ∈ m, 0 ≤ p.2) → sku_count_for_pareto m v = 1) := by
  constructor
  · intro hm
    subst hm
    exact ⟨rfl, by simp [pareto_percentage]⟩
  · intro hv0 hne hpos
    subst hv0
    rcases hsort : sortedSkus m with _ | ⟨p, rest⟩
    · exfalso
      apply hne
      have hlen := (List.perm_insertionSort skuDescOrder m).length_eq
      rw [show List.insertionSort skuDescOrder m = sortedSkus m from rfl, hsort] at hlen
      exact List.length_eq_zero.mp hlen.symm
    · have hpm : p ∈ m := by
        have hmem : p ∈ sortedSkus m := by
          rw [hsort]
          exact List.mem_cons_self p rest
        exact (List.perm_insertionSort skuDescOrder m).mem_iff.mp hmem
      have hp2 : 0 ≤ p.2 := hpos p hpm
      show paretoLoop (pareto_threshold 0) 0 0 ((sortedSkus m).map Prod.snd) = 1
      rw [hsort]
      simp [paretoLoop, pareto_threshold, hp2]

/-- Witness for C6 (amended) at concrete inputs. -/
theorem C6_pareto_zero_guard_amended_witness :
    sku_count_for_pareto ([] : List (String × ℚ)) 0 = 0 ∧
    pareto_percentage ([] : List (String × ℚ)) 0 = 0 ∧
    sku_count_for_pareto [("B", 0)] 0 = 1 :=
  ⟨((C6_pareto_zero_guard_amended [] 0).1 rfl).1,
   ((C6_pareto_zero_guard_amended [] 0).1 rfl).2,
   (C6_pareto_zero_guard_amended [("B", 0)] 0).2 rfl (by simp)
     (by intro p hp; rw [List.mem_singleton] at hp; subst hp; norm_num)⟩

/-- C10: on a nonempty SKU table with non-negative revenues and positive
total `v`, the count produced by the accumulation loop of
`process_large_csv` equals the count `(cumulative fraction < 0.8).sum() + 1`
of `create_pareto_chart`, for any two descending arrangements of the table
(ties may be ordered differently in the two functions). -/
theorem C10_pareto_count_refinement (m l₁ l₂ : List (String × ℚ)) (v : ℚ)
    (_hm : m ≠ []) (hpos : ∀ p ∈ m, 0 ≤ p.2)
    (hv : v = (m.map Prod.snd).sum) (h0 : 0 < v)
    (hp₁ : l₁.Perm m) (hp₂ : l₂.Perm m)
    (hs₁ : List.Sorted skuDescOrder l₁) (hs₂ : List.Sorted skuDescOrder l₂) :
    paretoLoop (pareto_threshold v) 0 0 (l₁.map Prod.snd) =
      chart_sku_count_80 (l₂.map Prod.snd) v := by
  have heq : l₁.map Prod.snd = l₂.map Prod.snd :=
    List.eq_of_perm_of_sorted ((hp₁.trans hp₂.symm).map Prod.snd)
      (sorted_map_snd hs₁) (sorted_map_snd hs₂)
  rw [heq]
  have hthr : pareto_threshold v = 0.8 * v := by
    rw [pareto_threshold, if_neg (ne_of_gt h0)]
  have hsum : (l₂.map Prod.snd).sum = v := by
    rw [hv]
    exact (hp₂.map Prod.snd).sum_eq
  have hposl : ∀ x ∈ l₂.map Prod.snd, 0 ≤ x := by
    intro x hx
    obtain ⟨p, hp, rfl⟩ := List.mem_map.mp hx
    exact hpos p (hp₂.subset hp)
  have h1 : (0 : ℚ) < pareto_threshold v := by rw [hthr]; linarith
  have h2 : pareto_threshold v ≤ 0 + (l₂.map Prod.snd).sum := by
    rw [hsum, hthr]; linarith
  rw [paretoLoop_eq_countP (pareto_threshold v) (l₂.map Prod.snd) 0 hposl h1 h2,
    chart_sku_count_80]
  congr 1
  apply List.countP_congr
  intro c _
  have hiff : c < pareto_threshold v ↔ c / v < 0.8 := by
    rw [hthr]
    exact (div_lt_iff₀ h0).symm
  simpa using hiff

/-- Witness for C10 on the table A ↦ 4, B ↦ 1 with total 5, using the same
descending arrangement on both sides. -/
theorem C10_pareto_count_refinement_witness :
    paretoLoop (pareto_threshold 5) 0 0 (([("A", 4), ("B", 1)] : List (String × ℚ)).map Prod.snd) =
      chart_sku_count_80 (([("A", 4), ("B", 1)] : List (String × ℚ)).map Prod.snd) 5 :=
  C10_pareto_count_refinement [("A", 4), ("B", 1)] [("A", 4), ("B", 1)] [("A", 4), ("B", 1)] 5
    (by simp)
    (by
      intro p hp
      rcases List.mem_cons.mp hp with h | h
      · subst h; norm_num
      · rw [List.mem_singleton] at h; subst h; norm_num)
    (by norm_num [List.map_cons, List.map_nil, List.sum_cons, List.sum_nil]) (by norm_num)
    (List.Perm.refl _) (List.Perm.refl _)
    (by norm_num [List.sorted_cons, skuDescOrder]) (by norm_num [List.sorted_cons, skuDescOrder])

/-! ## Stream aggregation (`process_large_csv`, `pmax_audit_tool.py` lines 91–206)

A data row is modelled by its raw cell strings.  A file whose
`search impr. share` column is absent behaves exactly as if every cell of
that column were `""` (both give a missing value for every row), so the
row model keeps the column. -/

/-- Raw cells of one CSV data row, after the header has been normalised
(`pmax_audit_tool.py` line 125). -/
structure RawRow where
  itemId : String
  impr : String
  clicks : String
  conversions : String
  convValue : String
  cost : String
  sis : String
deriving DecidableEq

/-- Running totals accumulated across chunks
(`pmax_audit_tool.py` lines 105–111). -/
structure RunningTotals where
  impressions : ℚ
  clicks : ℚ
  conversions : ℚ
  convValue : ℚ
  cost : ℚ
  sisSum : ℚ
  sisCount : ℕ
deriving DecidableEq

/-- Initial totals (`pmax_audit_tool.py` lines 105–111). -/
def zeroTotals : RunningTotals :=
  ⟨0, 0, 0, 0, 0, 0, 0⟩

/-- Contribution of a single row to the chunk sums of
`pmax_audit_tool.py` lines 136–161: required columns coerced by
`pmaxCoerce`, the search-impression-share cell contributing its value and a
count of one only when defined (`dropna`). -/
def rowTotals (r : RawRow) : RunningTotals :=
  ⟨pmaxCoerce r.impr, pmaxCoerce r.clicks, pmaxCoerce r.conversions,
   pmaxCoerce r.convValue, pmaxCoerce r.cost,
   (pmax_sis_value r.sis).getD 0,
   if (pmax_sis_value r.sis).isSome then 1 else 0⟩

/-- Pointwise addition of totals, the fold of `+=` at
`pmax_audit_tool.py` lines 153–161. -/
def addTotals (a b : RunningTotals) : RunningTotals :=
  ⟨a.impressions + b.impressions, a.clicks + b.clicks,
   a.conversions + b.conversions, a.convValue + b.convValue,
   a.cost + b.cost, a.sisSum + b.sisSum, a.sisCount + b.sisCount⟩

/-- Column sums of one chunk (`chunk[col].sum()` and the
search-impression-share sum/count of lines 153–161). -/
def chunkTotals (c : List RawRow) : RunningTotals :=
  c.foldl (fun t r => addTotals t (rowTotals r)) zeroTotals

/-- Folding chunk sums into the running totals, chunk by chunk, as the
`for chunk in pd.read_csv(...)` loop does. -/
def processChunks (chunks : List (List RawRow)) : RunningTotals :=
  chunks.foldl (fun t c => addTotals t (chunkTotals c)) zeroTotals

/-- Splits a row list into consecutive chunks of size `k` (size 1 when
`k = 0`), modelling the `chunksize` parameter of `pd.read_csv`. -/
def chunksOf {α : Type} (k : ℕ) : List α → List (List α)
  | [] => []
  | x :: xs => (x :: xs.take (k - 1)) :: chunksOf k (xs.drop (k - 1))
termination_by l => l.length
decreasing_by
  simp only [List.length_drop, List.length_cons]
  omega

theorem addTotals_zero_left (t : RunningTotals) : addTotals zeroTotals t = t := by
  cases t
  simp [addTotals, zeroTotals]

theorem addTotals_zero_right (t : RunningTotals) : addTotals t zeroTotals = t := by
  cases t
  simp [addTotals, zeroTotals]

theorem addTotals_assoc (a b c : RunningTotals) :
    addTotals (addTotals a b) c = addTotals a (addTotals b c) := by
  cases a; cases b; cases c
  simp [addTotals, add_assoc]

theorem foldl_rowTotals (l : List RawRow) :
    ∀ t : RunningTotals,
      l.foldl (fun t r => addTotals t (rowTotals r)) t = addTotals t (chunkTotals l) := by
  induction l with
  | nil => intro t; simp [addTotals_zero_right, chunkTotals]
  | cons r rest ih =>
      intro t
      have hc : chunkTotals (r :: rest) = addTotals (rowTotals r) (chunkTotals rest) := by
        show List.foldl _ (addTotals zeroTotals (rowTotals r)) rest = _
        rw [addTotals_zero_left, ih (rowTotals r)]
      rw [List.foldl_cons, ih (addTotals t (rowTotals r)), hc, addTotals_assoc]

theorem chunkTotals_append (a b : List RawRow) :
    chunkTotals (a ++ b) = addTotals (chunkTotals a) (chunkTotals b) := by
  show List.foldl _ _ (a ++ b) = _
  rw [List.foldl_append]
  exact foldl_rowTotals b (chunkTotals a)

theorem foldl_chunkTotals (chunks : List (List RawRow)) :
    ∀ t : RunningTotals,
      chunks.foldl (fun t c => addTotals t (chunkTotals c)) t =
        addTotals t (processChunks chunks) := by
  induction chunks with
  | nil => intro t; simp [addTotals_zero_right, processChunks]
  | cons c rest ih =>
      intro t
      have hp : processChunks (c :: rest) = addTotals (chunkTotals c) (processChunks rest) := by
        show List.foldl _ (addTotals zeroTotals (chunkTotals c)) rest = _
        rw [addTotals_zero_left, ih (chunkTotals c)]
      rw [List.foldl_cons, ih (addTotals t (chunkTotals c)), hp, addTotals_assoc]

theorem processChunks_join (chunks : List (List RawRow)) :
    processChunks chunks = chunkTotals chunks.flatten := by
  induction chunks with
  | nil => rfl
  | cons c rest ih =>
      have hp : processChunks (c :: rest) = addTotals (chunkTotals c) (processChunks rest) := by
        show List.foldl _ (addTotals zeroTotals (chunkTotals c)) rest = _
        rw [addTotals_zero_left, foldl_chunkTotals rest (chunkTotals c)]
      rw [hp, ih, List.flatten_cons, chunkTotals_append]

theorem join_chunksOf {α : Type} (k : ℕ) (l : List α) : (chunksOf k l).flatten = l := by
  induction l using chunksOf.induct k with
  | case1 => simp [chunksOf]
  | case2 x xs ih =>
      rw [chunksOf, List.flatten_cons, ih]
      simp [List.take_append_drop]

theorem join_map_singleton {α : Type} (l : List α) :
    (l.map (fun r => [r])).flatten = l := by
  induction l with
  | nil => rfl
  | cons x xs ih => simp [ih]

/-! ## Claim C4 -/

/-- C4: chunking invariance of the accumulated totals.  Any way of cutting
the row stream into chunks — an arbitrary chunk list, consecutive chunks of
size `k`, or one row per chunk (chunk size 1) — folds to exactly the totals
of the whole file as a single chunk: impressions, clicks, conversions,
conversion value, cost, and the sum and count of defined
search-impression-share values. -/
theorem C4_chunking_invariance (k : ℕ) (chunks : List (List RawRow)) (rows : List RawRow)
    (hjoin : chunks.flatten = rows) :
    processChunks chunks = chunkTotals rows ∧
    processChunks (chunksOf k rows) = chunkTotals rows ∧
    processChunks (rows.map (fun r => [r])) = chunkTotals rows := by
  refine ⟨?_, ?_, ?_⟩
  · rw [processChunks_join, hjoin]
  · rw [processChunks_join, join_chunksOf]
  · rw [processChunks_join, join_map_singleton]

/-- Witness for C4 on a concrete three-row file split as sizes 2 + 1. -/
theorem C4_chunking_invariance_witness :
    processChunks [[⟨"A", "10", "2", "1", "5", "3", "50%"⟩,
                    ⟨"B", "20", "4", "2", "7", "4", "--"⟩],
                   [⟨"C", "30", "6", "3", "9", "5", "< 10"⟩]] =
      chunkTotals [⟨"A", "10", "2", "1", "5", "3", "50%"⟩,
                   ⟨"B", "20", "4", "2", "7", "4", "--"⟩,
                   ⟨"C", "30", "6", "3", "9", "5", "< 10"⟩] ∧
    processChunks (chunksOf 2 [⟨"A", "10", "2", "1", "5", "3", "50%"⟩,
                   ⟨"B", "20", "4", "2", "7", "4", "--"⟩,
                   ⟨"C", "30", "6", "3", "9", "5", "< 10"⟩]) =
      chunkTotals [⟨"A", "10", "2", "1", "5", "3", "50%"⟩,
                   ⟨"B", "20", "4", "2", "7", "4", "--"⟩,
                   ⟨"C", "30", "6", "3", "9", "5", "< 10"⟩] ∧
    processChunks ([⟨"A", "10", "2", "1", "5", "3", "50%"⟩,
                    ⟨"B", "20", "4", "2", "7", "4", "--"⟩,
                    ⟨"C", "30", "6", "3", "9", "5", "< 10"⟩].map (fun r => [r])) =
      chunkTotals [⟨"A", "10", "2", "1", "5", "3", "50%"⟩,
                   ⟨"B", "20", "4", "2", "7", "4", "--"⟩,
                   ⟨"C", "30", "6", "3", "9", "5", "< 10"⟩] :=
  C4_chunking_invariance 2
    [[⟨"A", "10", "2", "1", "5", "3", "50%"⟩, ⟨"B", "20", "4", "2", "7", "4", "--"⟩],
     [⟨"C", "30", "6", "3", "9", "5", "< 10"⟩]]
    [⟨"A", "10", "2", "1", "5", "3", "50%"⟩, ⟨"B", "20", "4", "2", "7", "4", "--"⟩,
     ⟨"C", "30", "6", "3", "9", "5", "< 10"⟩]
    rfl

/-! ## Full `process_large_csv` and claim C5

The column check of `pmax_audit_tool.py` lines 127–133 runs inside the
chunk loop, but every chunk of one file shares the file's (normalised)
header, and `pd.read_csv` delivers at least one chunk even for a
header-only file, so the check is modelled once at entry.  The
`st.error(...)` call followed by `return {}, {}` (and the enclosing
`try/except` of lines 116–206 with the same return) is modelled by the
`missingCols` constructor: an error value surfaced to the caller with no
insights, rather than an escaping exception. -/

/-- Presence flags of the columns of one uploaded file after the
normalisation of `pmax_audit_tool.py` line 125. -/
structure CsvColumns where
  hasItemId : Bool
  hasImpr : Bool
  hasClicks : Bool
  hasConversions : Bool
  hasConvValue : Bool
  hasCost : Bool
deriving DecidableEq

/-- Models the comprehension of `pmax_audit_tool.py` line 129:
`[col for col in required_columns if col not in chunk.columns]`. -/
def missing_columns (c : CsvColumns) : List String :=
  (if c.hasImpr then [] else ["impr."]) ++
  (if c.hasClicks then [] else ["clicks"]) ++
  (if c.hasConversions then [] else ["conversions"]) ++
  (if c.hasConvValue then [] else ["conv. value"]) ++
  (if c.hasCost then [] else ["cost"])

/-- Models Python `round(x, 2)` over exact rationals (the float tie-break
of banker's rounding is not observable in any audited claim). -/
def round2 (q : ℚ) : ℚ :=
  (round (q * 100) : ℚ) / 100

/-- Models `pmax_audit_tool.py` line 188:
`(total_search_impr_share / valid_search_impr_count) if valid_search_impr_count > 0 else 0`. -/
def average_search_impr_share (sisSum : ℚ) (cnt : ℕ) : ℚ :=
  if 0 < cnt then sisSum / (cnt : ℚ) else 0

/-- Insights dictionary of `pmax_audit_tool.py` lines 190–200. -/
structure Insights where
  totalImpressions : ℚ
  totalClicks : ℚ
  totalConversions : ℚ
  totalConversionValue : ℚ
  totalCost : ℚ
  averageRoas : ℚ
  averageSearchImprShare : ℚ
  skusDriving80 : ℕ
  paretoPct : ℚ
deriving DecidableEq

/-- Result of one ingestion: either the surfaced missing-columns error
(`st.error` + `return {}, {}`) or the insights with the SKU table. -/
inductive ProcResult where
  | missingCols (cols : List String)
  | ok (insights : Insights) (skuSales : List (String × ℚ))
deriving DecidableEq

/-- Accumulates one sale into the SKU table, modelling
`sku_sales[sku] += sale` on the `defaultdict(float)` of
`pmax_audit_tool.py` lines 114 and 163–167. -/
def addSku : List (String × ℚ) → String → ℚ → List (String × ℚ)
  | [], k, v => [(k, v)]
  | (k0, v0) :: rest, k, v =>
      if k0 = k then (k0, v0 + v) :: rest else (k0, v0) :: addSku rest k v

/-- SKU table accumulated over all rows (the per-chunk `groupby` sums
folded into the dict are row-wise additions); empty when the `item id`
column is absent (lines 164–169). -/
def skuSalesOf (hasItemId : Bool) (rows : List RawRow) : List (String × ℚ) :=
  if hasItemId then
    rows.foldl (fun m r => addSku m r.itemId (pmaxCoerce r.convValue)) []
  else []

/-- Models `process_large_csv` (`pmax_audit_tool.py` lines 91–206): abort
with the missing-columns error when a required column is absent, otherwise
fold the chunks into totals, build the SKU table, and assemble the
insights of lines 186–200. -/
def process_large_csv (cols : CsvColumns) (chunks : List (List RawRow)) : ProcResult :=
  if missing_columns cols ≠ [] then .missingCols (missing_columns cols)
  else
    let t := processChunks chunks
    let m := skuSalesOf cols.hasItemId chunks.flatten
    ProcResult.ok
      ⟨t.impressions, t.clicks, t.conversions, t.convValue, t.cost,
       round2 (average_roas t.convValue t.cost),
       round2 (average_search_impr_share t.sisSum t.sisCount),
       sku_count_for_pareto m t.convValue,
       round2 (pareto_percentage m t.convValue)⟩
      m

/-- C5: whenever any required canonical column (impressions, clicks,
conversions, conversion value, cost) is absent after header mapping, the
whole ingestion aborts with the missing-columns error: the result carries
the nonempty list of absent columns and is never an `ok` report, and the
total model function shows no exception escapes. -/
theorem C5_missing_columns_abort (cols : CsvColumns) (chunks : List (List RawRow))
    (h : cols.hasImpr = false ∨ cols.hasClicks = false ∨ cols.hasConversions = false ∨
         cols.hasConvValue = false ∨ cols.hasCost = false) :
    process_large_csv cols chunks = ProcResult.missingCols (missing_columns cols) ∧
    missing_columns cols ≠ [] ∧
    ∀ ins m, process_large_csv cols chunks ≠ ProcResult.ok ins m := by
  have hne : missing_columns cols ≠ [] := by
    rcases h with h | h | h | h | h <;> simp [missing_columns, h]
  have hres : process_large_csv cols chunks = ProcResult.missingCols (missing_columns cols) := by
    rw [process_large_csv, if_pos hne]
  refine ⟨hres, hne, ?_⟩
  intro ins m hcontra
  rw [hres] at hcontra
  exact ProcResult.noConfusion hcontra

/-- Witness for C5: a file whose cost column is missing. -/
theorem C5_missing_columns_abort_witness :
    process_large_csv ⟨true, true, true, true, true, false⟩
        [[⟨"A", "10", "2", "1", "5", "3", "50%"⟩]] =
      ProcResult.missingCols
        (missing_columns ⟨true, true, true, true, true, false⟩) ∧
    missing_columns ⟨true, true, true, true, true, false⟩ ≠ [] ∧
    ∀ ins m,
      process_large_csv ⟨true, true, true, true, true, false⟩
          [[⟨"A", "10", "2", "1", "5", "3", "50%"⟩]] ≠
        ProcResult.ok ins m :=
  C5_missing_columns_abort ⟨true, true, true, true, true, false⟩
    [[⟨"A", "10", "2", "1", "5", "3", "50%"⟩]]
    (Or.inr (Or.inr (Or.inr (Or.inr rfl))))

/-! ## `assess_product_performance` (`data_processing.py` lines 143–220)

A dataset row is modelled by the raw cell strings of the columns the
audited claims touch (impressions, clicks, conversions, conversion value,
cost); line 153 coerces each with `numericCoerce`, which never produces a
negative value (the regex strips any minus sign). -/

/-- Raw cells of one row of the uploaded dataset, after
`clean_column_names`. -/
structure AssessRow where
  impressions : String
  clicks : String
  conversions : String
  convValue : String
  cost : String
deriving DecidableEq

/-- One row after the numeric coercion of `data_processing.py`
lines 150–153. -/
structure CoercedRow where
  impressions : ℚ
  clicks : ℚ
  conversions : ℚ
  convValue : ℚ
  cost : ℚ
deriving DecidableEq

/-- Coercion of one row (`data_processing.py` lines 150–153). -/
def coerceAssessRow (r : AssessRow) : CoercedRow :=
  ⟨numericCoerce r.impressions, numericCoerce r.clicks, numericCoerce r.conversions,
   numericCoerce r.convValue, numericCoerce r.cost⟩

/-- Coercion of the whole dataset (`data_processing.py` lines 150–153). -/
def coerceRows (raw : List AssessRow) : List CoercedRow :=
  raw.map coerceAssessRow

/-- Models `data_processing.py` line 179:
`total_conversion_value = df["conversion_value"].sum()`. -/
def total_conversion_value (rows : List CoercedRow) : ℚ :=
  (rows.map (fun r => r.convValue)).sum

/-- Descending order on rows by conversion value, as used by
`df.sort_values(by="conversion_value", ascending=False)`
(`data_processing.py` line 187). -/
def convValueDescOrder (a b : CoercedRow) : Prop :=
  b.convValue ≤ a.convValue

instance : DecidableRel convValueDescOrder :=
  fun a b => inferInstanceAs (Decidable (b.convValue ≤ a.convValue))

instance : IsTotal CoercedRow convValueDescOrder :=
  ⟨fun a b => le_total b.convValue a.convValue⟩

instance : IsTrans CoercedRow convValueDescOrder :=
  ⟨fun _ _ _ h1 h2 => le_trans h2 h1⟩

/-- Models `df_sorted` of `data_processing.py` line 187 (pandas
`sort_values` leaves tie order unspecified; the audited facts are
tie-independent). -/
def df_sorted (rows : List CoercedRow) : List CoercedRow :=
  List.insertionSort convValueDescOrder rows

/-- Models `data_processing.py` line 189:
`num_skus = int(df.shape[0] * (threshold / 100))`, the floor of
`n * t / 100`. -/
def tier_num_skus (n t : ℕ) : ℕ :=
  n * t / 100

/-- Models `top_n_skus = df_sorted.head(num_skus)`
(`data_processing.py` line 190). -/
def top_n_skus (rows : List CoercedRow) (t : ℕ) : List CoercedRow :=
  (df_sorted rows).take (tier_num_skus rows.length t)

/-- Tier revenue: `top_n_skus["conversion_value"].sum()` (line 191). -/
def tier_conv_value (rows : List CoercedRow) (t : ℕ) : ℚ :=
  ((top_n_skus rows t).map (fun r => r.convValue)).sum

/-- Tier cost: `total_cost_tier = top_n_skus["cost"].sum()` (line 193). -/
def tier_cost (rows : List CoercedRow) (t : ℕ) : ℚ :=
  ((top_n_skus rows t).map (fun r => r.cost)).sum

/-- One reported tier entry of `sku_contribution`
(`data_processing.py` lines 195–200). -/
structure TierResult where
  skuCount : ℕ
  percentage : ℚ
  convValue : ℚ
  roas : ℚ
deriving DecidableEq

/-- Models the body of the threshold loop of `data_processing.py`
lines 188–200 for one threshold `t` (executed when
`total_conversion_value > 0` and both columns exist). -/
def sku_contribution (rows : List CoercedRow) (t : ℕ) : TierResult :=
  ⟨tier_num_skus rows.length t,
   round2 (if 0 < total_conversion_value rows
           then tier_conv_value rows t / total_conversion_value rows * 100 else 0),
   round2 (tier_conv_value rows t),
   round2 (if 0 < tier_cost rows t
           then tier_conv_value rows t / tier_cost rows t else 0)⟩

/-! ### Non-negativity of coerced cells and monotonicity helpers -/

theorem parseDecimal_nonneg (s : String) (q : ℚ) (h : parseDecimal s = some q) :
    0 ≤ q := by
  unfold parseDecimal at h
  split at h
  · split_ifs at h
    · obtain ⟨rfl⟩ : some ((digitsVal _ : ℕ) : ℚ) = some q := h
      positivity
  · split_ifs at h
    · obtain ⟨rfl⟩ :
        some ((digitsVal _ : ℚ) + (digitsVal _ : ℚ) / (10 : ℚ) ^ _) = some q := h
      positivity
  · exact absurd h (by simp)

theorem numericCoerce_nonneg (s : String) : 0 ≤ numericCoerce s := by
  rw [numericCoerce]
  rcases h : parseDecimal (stripNonNumeric s) with _ | q
  · simp
  · simpa using parseDecimal_nonneg _ q h

theorem sum_take_mono (l : List ℚ) (hpos : ∀ x ∈ l, 0 ≤ x) :
    ∀ k j : ℕ, k ≤ j → (l.take k).sum ≤ (l.take j).sum := by
  induction l with
  | nil => intro k j _; simp
  | cons x xs ih =>
      intro k j hkj
      cases k with
      | zero =>
          simp only [List.take_zero, List.sum_nil]
          exact List.sum_nonneg fun a ha => hpos a (List.take_subset j (x :: xs) ha)
      | succ k0 =>
          cases j with
          | zero => omega
          | succ j0 =>
              rw [List.take_succ_cons, List.take_succ_cons, List.sum_cons, List.sum_cons]
              have := ih (fun a ha => hpos a (List.mem_cons_of_mem x ha)) k0 j0 (by omega)
              linarith

theorem round2_mono {q r : ℚ} (h : q ≤ r) : round2 q ≤ round2 r := by
  rw [round2, round2, round_eq, round_eq]
  have hfl : (⌊q * 100 + 1 / 2⌋ : ℤ) ≤ ⌊r * 100 + 1 / 2⌋ := Int.floor_mono (by linarith)
  have hc : ((⌊q * 100 + 1 / 2⌋ : ℤ) : ℚ) ≤ ((⌊r * 100 + 1 / 2⌋ : ℤ) : ℚ) := by
    exact_mod_cast hfl
  linarith

/-! ## Claims C7 and C8 -/

/-- C7: for a dataset with positive total conversion value and any tier
threshold `t` (in particular each of 5, 10, 20, 50), the reported tier has
`sku_count = floor(n * t / 100)`; its revenue, revenue share of the global
total, and ROAS are computed over exactly the top `sku_count` rows of a
descending conversion-value ranking of the dataset; and the tier ROAS is
guarded against non-positive tier cost. -/
theorem C7_tier_breakdown (rows : List CoercedRow) (t : ℕ)
    (hv : 0 < total_conversion_value rows) :
    (sku_contribution rows t).skuCount = rows.length * t / 100 ∧
    (df_sorted rows).Perm rows ∧
    List.Sorted convValueDescOrder (df_sorted rows) ∧
    top_n_skus rows t = (df_sorted rows).take (rows.length * t / 100) ∧
    (sku_contribution rows t).convValue = round2 (tier_conv_value rows t) ∧
    (sku_contribution rows t).percentage =
      round2 (tier_conv_value rows t / total_conversion_value rows * 100) ∧
    (0 < tier_cost rows t →
      (sku_contribution rows t).roas =
        round2 (tier_conv_value rows t / tier_cost rows t)) ∧
    (¬0 < tier_cost rows t → (sku_contribution rows t).roas = 0) := by
  refine ⟨rfl, List.perm_insertionSort convValueDescOrder rows,
    List.sorted_insertionSort convValueDescOrder rows, rfl, rfl, ?_, ?_, ?_⟩
  · simp [sku_contribution, hv]
  · intro h
    simp [sku_contribution, h]
  · intro h
    simp [sku_contribution, h, round2]

/-- Witness for C7 on the two-row scenario dataset at threshold 50. -/
theorem C7_tier_breakdown_witness :
    (sku_contribution [⟨1000, 100, 10, 500, 100⟩, ⟨500, 10, 1, 50, 50⟩] 50).skuCount =
      ([⟨1000, 100, 10, 500, 100⟩, ⟨500, 10, 1, 50, 50⟩] : List CoercedRow).length * 50 / 100 ∧
    (df_sorted [⟨1000, 100, 10, 500, 100⟩, ⟨500, 10, 1, 50, 50⟩]).Perm
      [⟨1000, 100, 10, 500, 100⟩, ⟨500, 10, 1, 50, 50⟩] ∧
    List.Sorted convValueDescOrder (df_sorted [⟨1000, 100, 10, 500, 100⟩, ⟨500, 10, 1, 50, 50⟩]) ∧
    top_n_skus [⟨1000, 100, 10, 500, 100⟩, ⟨500, 10, 1, 50, 50⟩] 50 =
      (df_sorted [⟨1000, 100, 10, 500, 100⟩, ⟨500, 10, 1, 50, 50⟩]).take
        (([⟨1000, 100, 10, 500, 100⟩, ⟨500, 10, 1, 50, 50⟩] : List CoercedRow).length * 50 / 100) ∧
    (sku_contribution [⟨1000, 100, 10, 500, 100⟩, ⟨500, 10, 1, 50, 50⟩] 50).convValue =
      round2 (tier_conv_value [⟨1000, 100, 10, 500, 100⟩, ⟨500, 10, 1, 50, 50⟩] 50) ∧
    (sku_contribution [⟨1000, 100, 10, 500, 100⟩, ⟨500, 10, 1, 50, 50⟩] 50).percentage =
      round2 (tier_conv_value [⟨1000, 100, 10, 500, 100⟩, ⟨500, 10, 1, 50, 50⟩] 50 /
        total_conversion_value [⟨1000, 100, 10, 500, 100⟩, ⟨500, 10, 1, 50, 50⟩] * 100) ∧
    (0 < tier_cost [⟨1000, 100, 10, 500, 100⟩, ⟨500, 10, 1, 50, 50⟩] 50 →
      (sku_contribution [⟨1000, 100, 10, 500, 100⟩, ⟨500, 10, 1, 50, 50⟩] 50).roas =
        round2 (tier_conv_value [⟨1000, 100, 10, 500, 100⟩, ⟨500, 10, 1, 50, 50⟩] 50 /
          tier_cost [⟨1000, 100, 10, 500, 100⟩, ⟨500, 10, 1, 50, 50⟩] 50)) ∧
    (¬0 < tier_cost [⟨1000, 100, 10, 500, 100⟩, ⟨500, 10, 1, 50, 50⟩] 50 →
      (sku_contribution [⟨1000, 100, 10, 500, 100⟩, ⟨500, 10, 1, 50, 50⟩] 50).roas = 0) :=
  C7_tier_breakdown [⟨1000, 100, 10, 500, 100⟩, ⟨500, 10, 1, 50, 50⟩] 50
    (by norm_num [total_conversion_value])

/-- C8: tier revenue-contribution percentages reported by
`assess_product_performance` are non-decreasing in the tier threshold
(5% ≤ 10% ≤ 20% ≤ 50%), for every raw dataset with positive coerced total
conversion value: the coercion of line 153 strips minus signs, so all
conversion values are non-negative and a larger descending prefix can only
add revenue. -/
theorem C8_tier_monotonicity (raw : List AssessRow)
    (hv : 0 < total_conversion_value (coerceRows raw)) :
    (sku_contribution (coerceRows raw) 5).percentage ≤
      (sku_contribution (coerceRows raw) 10).percentage ∧
    (sku_contribution (coerceRows raw) 10).percentage ≤
      (sku_contribution (coerceRows raw) 20).percentage ∧
    (sku_contribution (coerceRows raw) 20).percentage ≤
      (sku_contribution (coerceRows raw) 50).percentage := by
  have hnn : ∀ x ∈ (df_sorted (coerceRows raw)).map (fun r => r.convValue), 0 ≤ x := by
    intro x hx
    obtain ⟨r, hr, rfl⟩ := List.mem_map.mp hx
    have hrm : r ∈ coerceRows raw :=
      (List.perm_insertionSort convValueDescOrder (coerceRows raw)).mem_iff.mp hr
    obtain ⟨r0, _, rfl⟩ := List.mem_map.mp hrm
    exact numericCoerce_nonneg _
  have key : ∀ t u : ℕ, t ≤ u →
      (sku_contribution (coerceRows raw) t).percentage ≤
        (sku_contribution (coerceRows raw) u).percentage := by
    intro t u htu
    have hk : tier_num_skus (coerceRows raw).length t ≤ tier_num_skus (coerceRows raw).length u :=
      Nat.div_le_div_right (Nat.mul_le_mul_left _ htu)
    have hcv : tier_conv_value (coerceRows raw) t ≤ tier_conv_value (coerceRows raw) u := by
      rw [tier_conv_value, tier_conv_value, top_n_skus, top_n_skus,
        List.map_take, List.map_take]
      exact sum_take_mono _ hnn _ _ hk
    have hpct : ∀ w : ℕ, (sku_contribution (coerceRows raw) w).percentage =
        round2 (tier_conv_value (coerceRows raw) w /
          total_conversion_value (coerceRows raw) * 100) := by
      intro w
      simp [sku_contribution, hv]
    rw [hpct t, hpct u]
    apply round2_mono
    gcongr
  exact ⟨key 5 10 (by norm_num), key 10 20 (by norm_num), key 20 50 (by norm_num)⟩

/-- Witness for C8 on a concrete raw dataset. -/
theorem C8_tier_monotonicity_witness :
    (sku_contribution (coerceRows [⟨"1000", "100", "10", "500", "100"⟩,
        ⟨"500", "10", "1", "50", "50"⟩]) 5).percentage ≤
      (sku_contribution (coerceRows [⟨"1000", "100", "10", "500", "100"⟩,
        ⟨"500", "10", "1", "50", "50"⟩]) 10).percentage ∧
    (sku_contribution (coerceRows [⟨"1000", "100", "10", "500", "100"⟩,
        ⟨"500", "10", "1", "50", "50"⟩]) 10).percentage ≤
      (sku_contribution (coerceRows [⟨"1000", "100", "10", "500", "100"⟩,
        ⟨"500", "10", "1", "50", "50"⟩]) 20).percentage ∧
    (sku_contribution (coerceRows [⟨"1000", "100", "10", "500", "100"⟩,
        ⟨"500", "10", "1", "50", "50"⟩]) 20).percentage ≤
      (sku_contribution (coerceRows [⟨"1000", "100", "10", "500", "100"⟩,
        ⟨"500", "10", "1", "50", "50"⟩]) 50).percentage :=
  C8_tier_monotonicity [⟨"1000", "100", "10", "500", "100"⟩, ⟨"500", "10", "1", "50", "50"⟩]
    (by
      have h1 : numericCoerce "500" = 500 := by decide
      have h2 : numericCoerce "50" = 50 := by decide
      simp [total_conversion_value, coerceRows, coerceAssessRow, h1, h2]
      norm_num)

/-! ## Funnel metrics (`calculate_funnel_metrics`, `data_processing.py` lines 35–121)

Only the categorization and band counts are embedded; the standard
deviations of lines 55–56 do not influence any band.  The function is
called by `assess_product_performance` on the already-coerced dataset
(line 203). -/

/-- Performance band assigned by `np.select` (lines 59–76). -/
inductive Band where
  | high
  | moderate
  | low
  | unknown
deriving DecidableEq, BEq

/-- Models line 42–44: `impressions / clicks if clicks > 0 else None`. -/
def impressions_per_click (r : CoercedRow) : Option ℚ :=
  if 0 < r.clicks then some (r.impressions / r.clicks) else none

/-- Models line 46–48: `clicks / conversions if conversions > 0 else None`. -/
def clicks_per_conversion (r : CoercedRow) : Option ℚ :=
  if 0 < r.conversions then some (r.clicks / r.conversions) else none

/-- Models line 51: mean of the defined impressions-per-click values, 0
when none is defined. -/
def avg_ipc (rows : List CoercedRow) : ℚ :=
  let l := rows.filterMap impressions_per_click
  if l.length ≠ 0 then l.sum / (l.length : ℚ) else 0

/-- Models line 52: mean of the defined clicks-per-conversion values, 0
when none is defined. -/
def avg_cpc (rows : List CoercedRow) : ℚ :=
  let l := rows.filterMap clicks_per_conversion
  if l.length ≠ 0 then l.sum / (l.length : ℚ) else 0

/-- Models the `np.select` of lines 59–66: High when the ratio is at most
0.9 of the mean, Moderate up to 1.1 of the mean, Low beyond or when
clicks = 0, default Unknown. -/
def ipc_category (avg : ℚ) (r : CoercedRow) : Band :=
  if 0 < r.clicks then
    if r.impressions / r.clicks ≤ avg * 0.9 then .high
    else if r.impressions / r.clicks ≤ avg * 1.1 then .moderate
    else .low
  else if r.clicks = 0 then .low
  else .unknown

/-- Models the `np.select` of lines 69–76 for clicks per conversion. -/
def cpc_category (avg : ℚ) (r : CoercedRow) : Band :=
  if 0 < r.conversions then
    if r.clicks / r.conversions ≤ avg * 0.9 then .high
    else if r.clicks / r.conversions ≤ avg * 1.1 then .moderate
    else .low
  else if r.conversions = 0 then .low
  else .unknown

/-- Band counts of lines 79–89 for impressions per click:
(High, Moderate, Low). -/
def ipc_counts (rows : List CoercedRow) : ℕ × ℕ × ℕ :=
  (rows.countP (fun r => decide (ipc_category (avg_ipc rows) r = Band.high)),
   rows.countP (fun r => decide (ipc_category (avg_ipc rows) r = Band.moderate)),
   rows.countP (fun r => decide (ipc_category (avg_ipc rows) r = Band.low)))

/-- Band counts of lines 79–89 for clicks per conversion. -/
def cpc_counts (rows : List CoercedRow) : ℕ × ℕ × ℕ :=
  (rows.countP (fun r => decide (cpc_category (avg_cpc rows) r = Band.high)),
   rows.countP (fun r => decide (cpc_category (avg_cpc rows) r = Band.moderate)),
   rows.countP (fun r => decide (cpc_category (avg_cpc rows) r = Band.low)))

theorem countP_bands {α : Type} (l : List α) (f : α → Band)
    (h : ∀ x ∈ l, f x ≠ Band.unknown) :
    l.countP (fun x => decide (f x = Band.high)) +
      l.countP (fun x => decide (f x = Band.moderate)) +
      l.countP (fun x => decide (f x = Band.low)) = l.length := by
  induction l with
  | nil => simp
  | cons x xs ih =>
      have hx := h x (List.mem_cons_self x xs)
      have hxs := ih fun a ha => h a (List.mem_cons_of_mem x ha)
      rw [List.countP_cons, List.countP_cons, List.countP_cons, List.length_cons]
      cases hfx : f x <;> simp [hfx] at hx ⊢ <;> omega

theorem ipc_category_ne_unknown (avg : ℚ) (r : CoercedRow) (h : 0 ≤ r.clicks) :
    ipc_category avg r ≠ Band.unknown := by
  rw [ipc_category]
  split_ifs with h1 h2 h3 h4 <;> simp
  exact h4 (le_antisymm (not_lt.mp h1) h)

theorem cpc_category_ne_unknown (avg : ℚ) (r : CoercedRow) (h : 0 ≤ r.conversions) :
    cpc_category avg r ≠ Band.unknown := by
  rw [cpc_category]
  split_ifs with h1 h2 h3 h4 <;> simp
  exact h4 (le_antisymm (not_lt.mp h1) h)

/-! ## Claim C9 -/

/-- C9: for every raw dataset (with the impressions, clicks and
conversions columns present), the High, Moderate and Low band counts of
`calculate_funnel_metrics` sum to the total row count, independently for
the impressions-per-click and the clicks-per-conversion categorization:
after coercion every click and conversion count is non-negative, so each
row falls in exactly one band (zero denominators are banded Low). -/
theorem C9_funnel_completeness (raw : List AssessRow) :
    (ipc_counts (coerceRows raw)).1 + (ipc_counts (coerceRows raw)).2.1 +
      (ipc_counts (coerceRows raw)).2.2 = raw.length ∧
    (cpc_counts (coerceRows raw)).1 + (cpc_counts (coerceRows raw)).2.1 +
      (cpc_counts (coerceRows raw)).2.2 = raw.length := by
  have hlen : (coerceRows raw).length = raw.length := List.length_map raw coerceAssessRow
  constructor
  · rw [show (ipc_counts (coerceRows raw)).1 + (ipc_counts (coerceRows raw)).2.1 +
        (ipc_counts (coerceRows raw)).2.2 =
        (coerceRows raw).countP
            (fun r => decide (ipc_category (avg_ipc (coerceRows raw)) r = Band.high)) +
          (coerceRows raw).countP
            (fun r => decide (ipc_category (avg_ipc (coerceRows raw)) r = Band.moderate)) +
          (coerceRows raw).countP
            (fun r => decide (ipc_category (avg_ipc (coerceRows raw)) r = Band.low)) from rfl,
      ← hlen]
    apply countP_bands
    intro r hr
    obtain ⟨r0, _, rfl⟩ := List.mem_map.mp hr
    exact ipc_category_ne_unknown _ _ (numericCoerce_nonneg _)
  · rw [show (cpc_counts (coerceRows raw)).1 + (cpc_counts (coerceRows raw)).2.1 +
        (cpc_counts (coerceRows raw)).2.2 =
        (coerceRows raw).countP
            (fun r => decide (cpc_category (avg_cpc (coerceRows raw)) r = Band.high)) +
          (coerceRows raw).countP
            (fun r => decide (cpc_category (avg_cpc (coerceRows raw)) r = Band.moderate)) +
          (coerceRows raw).countP
            (fun r => decide (cpc_category (avg_cpc (coerceRows raw)) r = Band.low)) from rfl,
      ← hlen]
    apply countP_bands
    intro r hr
    obtain ⟨r0, _, rfl⟩ := List.mem_map.mp hr
    exact cpc_category_ne_unknown _ _ (numericCoerce_nonneg _)
